import Mathlib

/-!
# Verification of feather's status-effect and entity-property core

A shallow embedding, in Lean 4, of the feather server's status-effect
scheduler (`server/src/entity/effect.rs`), attribute-resync poller
(`server/src/entity/properties.rs`), effect catalog (`core/src/effect.rs`)
and entity-property wire codec (`core/src/entityproperty.rs`), together
with theorems settling the specified properties of those routines.

Machine integers are modelled as `Nat`/`Int` with explicit reduction
modulo `2^w` where Rust's fixed-width semantics matter.  Bytes are `Nat`
values below 256; `f64` fields never enter arithmetic in this code, so a
double is modelled by its 64-bit pattern (a `Nat` below `2^64`), which
makes bit-for-bit preservation literal.  Fallible Rust code returns
`Except`/`Option`; a Rust panic (an `unwrap` failure or an out-of-bounds
`Vec::remove`) is modelled as a distinguished error outcome.
-/

/-! ## Fixed-width integer helpers -/

/-- Reinterpret a natural number as a signed two's-complement value of
bit width `w` (the value of `n % 2^w` read as a signed integer). -/
def toSigned (w : Nat) (n : Nat) : Int :=
  if n % 2 ^ w < 2 ^ (w - 1) then ((n % 2 ^ w : Nat) : Int)
  else ((n % 2 ^ w : Nat) : Int) - 2 ^ w

/-- `u8` value read as Rust `i8` (`as i8`). -/
def toSigned8 (n : Nat) : Int := toSigned 8 n

/-- `u32` pattern read as Rust `i32` (`as i32`). -/
def toSigned32 (n : Nat) : Int := toSigned 32 n

/-- `u64` pattern read as Rust `i64` (`as i64`), e.g. `now as i64`. -/
def i64ofU64 (n : Nat) : Int := toSigned 64 n

/-- The `u64` bit pattern of a Rust integer value (`as u64`), e.g.
`time_start as u64`. -/
def u64ofInt (v : Int) : Nat := (v.emod (2 ^ 64)).toNat

/-- The `u32` bit pattern of a Rust integer value, used when an `i32`
is re-encoded into bytes. -/
def u32ofInt (v : Int) : Nat := (v.emod (2 ^ 32)).toNat

/-- Wrapping subtraction on `u8` operands (`a - b` in release builds). -/
def u8Sub (a b : Nat) : Nat := (a % 256 + 256 - b % 256) % 256

/-- Whether `a - b` on `u8` operands underflows (panics in debug builds). -/
def u8SubUnderflows (a b : Nat) : Bool := a % 256 < b % 256

/-- Wrapping subtraction on `u64` operands. -/
def u64Sub (a b : Nat) : Nat := (a % 2 ^ 64 + 2 ^ 64 - b % 2 ^ 64) % 2 ^ 64

/-- Wrapping addition on `u64` operands. -/
def u64Add (a b : Nat) : Nat := (a % 2 ^ 64 + b % 2 ^ 64) % 2 ^ 64

theorem toSigned32_of_lt {n : Nat} (h : n < 2 ^ 31) : toSigned32 n = (n : Int) := by
  have h32 : n < 2 ^ 32 := lt_trans h (by norm_num)
  simp only [toSigned32, toSigned, Nat.mod_eq_of_lt h32]
  rw [if_pos]
  exact h

theorem u8Sub_of_le {a b : Nat} (ha : a < 256) (hb : b ≤ a) : u8Sub a b = a - b := by
  have hb' : b < 256 := lt_of_le_of_lt hb ha
  simp only [u8Sub, Nat.mod_eq_of_lt ha, Nat.mod_eq_of_lt hb']
  rw [show a + 256 - b = (a - b) + 256 by omega]
  rw [Nat.add_mod_right, Nat.mod_eq_of_lt (by omega)]

theorem i64ofU64_of_lt {n : Nat} (h : n < 2 ^ 63) : i64ofU64 n = (n : Int) := by
  have h64 : n < 2 ^ 64 := lt_trans h (by norm_num)
  simp only [i64ofU64, toSigned, Nat.mod_eq_of_lt h64]
  rw [if_pos]
  exact h

/-! ## Effect catalog (`core/src/effect.rs`)

`StatusEffect` is the closed enumeration of the 32 status-effect kinds.
`protocol_id` is `to_i8().unwrap() + 1` (enumeration index plus one);
`from_protocol_id id` is `from_i8(id - 1)`. -/

inductive StatusEffect where
  | Speed | Slowness | Haste | MiningFatigue | Strength | InstantHealth
  | InstantDamage | JumpBoost | Nausea | Regeneration | Resistance
  | FireResistance | WaterBreathing | Invisibility | Blindness
  | NightVision | Hunger | Weakness | Poison | Wither | HealthBoost
  | Absorption | Saturation | Glowing | Levitation | Luck | BadLuck
  | SlowFalling | ConduitPower | DolphinsGrace | BadOmen | HeroOfTheVillage
  deriving DecidableEq, Repr

/-- The enumeration index of a status-effect kind (`to_i8()`). -/
def StatusEffect.toIndex : StatusEffect → Nat
  | .Speed => 0 | .Slowness => 1 | .Haste => 2 | .MiningFatigue => 3
  | .Strength => 4 | .InstantHealth => 5 | .InstantDamage => 6
  | .JumpBoost => 7 | .Nausea => 8 | .Regeneration => 9 | .Resistance => 10
  | .FireResistance => 11 | .WaterBreathing => 12 | .Invisibility => 13
  | .Blindness => 14 | .NightVision => 15 | .Hunger => 16 | .Weakness => 17
  | .Poison => 18 | .Wither => 19 | .HealthBoost => 20 | .Absorption => 21
  | .Saturation => 22 | .Glowing => 23 | .Levitation => 24 | .Luck => 25
  | .BadLuck => 26 | .SlowFalling => 27 | .ConduitPower => 28
  | .DolphinsGrace => 29 | .BadOmen => 30 | .HeroOfTheVillage => 31

/-- `StatusEffect::protocol_id`: the wire code, enumeration index plus 1. -/
def StatusEffect.protocol_id (s : StatusEffect) : Int := (s.toIndex : Int) + 1

/-- Inverse of `toIndex` (`FromPrimitive::from_i8` on the index). -/
def StatusEffect.fromIndex : Int → Option StatusEffect
  | 0 => some .Speed | 1 => some .Slowness | 2 => some .Haste
  | 3 => some .MiningFatigue | 4 => some .Strength | 5 => some .InstantHealth
  | 6 => some .InstantDamage | 7 => some .JumpBoost | 8 => some .Nausea
  | 9 => some .Regeneration | 10 => some .Resistance | 11 => some .FireResistance
  | 12 => some .WaterBreathing | 13 => some .Invisibility | 14 => some .Blindness
  | 15 => some .NightVision | 16 => some .Hunger | 17 => some .Weakness
  | 18 => some .Poison | 19 => some .Wither | 20 => some .HealthBoost
  | 21 => some .Absorption | 22 => some .Saturation | 23 => some .Glowing
  | 24 => some .Levitation | 25 => some .Luck | 26 => some .BadLuck
  | 27 => some .SlowFalling | 28 => some .ConduitPower | 29 => some .DolphinsGrace
  | 30 => some .BadOmen | 31 => some .HeroOfTheVillage
  | _ => none

/-- `StatusEffect::from_protocol_id`: `from_i8(id - 1)`. -/
def StatusEffect.from_protocol_id (id : Int) : Option StatusEffect :=
  StatusEffect.fromIndex (id - 1)

/-! ## Modifier operations (`core/src/entityproperty.rs`) -/

inductive ModifierOperation where
  | Add | AddPercent | Multiply
  deriving DecidableEq, Repr

/-- `ModifierOperation::to_protocol`. -/
def ModifierOperation.to_protocol : ModifierOperation → Int
  | .Add => 0
  | .AddPercent => 1
  | .Multiply => 2

/-- `ModifierOperation::from_protocol`. -/
def ModifierOperation.from_protocol : Int → Option ModifierOperation
  | 0 => some .Add
  | 1 => some .AddPercent
  | 2 => some .Multiply
  | _ => none

/-! ## Wire primitives

The primitive byte reads/writes (`push_i32`, `push_f64`, `push_var_int`,
`push_uuid`, `push_string`, `push_i8` and their `try_get_*` counterparts)
live in `core`'s `mctypes`/`bytes_ext` modules, which are not part of the
sources under study.  They are modelled from the spec (§6): fixed-width
integers big-endian, 16-byte identifiers, Minecraft var-ints, and
length-prefixed strings.  A buffer is a `List Nat` of byte values. -/

/-- Decode-side outcomes: `eof` and `malformed` are recoverable errors
surfaced as `anyhow::Result` values; `panicked` marks a Rust panic
(a failed `unwrap`), which is not a result value the caller receives. -/
inductive DecodeErr where
  | eof | malformed | panicked
  deriving DecidableEq, Repr

/-- Modelled from the spec: big-endian encoding of `n` in `w` bytes
(the fixed-width integer wire layout of §6). -/
def beBytes : Nat → Nat → List Nat
  | 0, _ => []
  | w + 1, n => (n / 256 ^ w) % 256 :: beBytes w (n % 256 ^ w)

/-- Modelled from the spec: read `w` big-endian bytes into an accumulator. -/
def readBE : Nat → Nat → List Nat → Except DecodeErr (Nat × List Nat)
  | 0, acc, l => .ok (acc, l)
  | _ + 1, _, [] => .error .eof
  | w + 1, acc, b :: rest => readBE w (acc * 256 + b) rest

/-- Modelled from the spec: LEB128 byte sequence of an unsigned 32-bit
pattern (the var-int wire layout). -/
def varIntBytes (u : Nat) : List Nat :=
  if h : u < 128 then [u] else (u % 128 + 128) :: varIntBytes (u / 128)
  termination_by u
  decreasing_by exact Nat.div_lt_self (by omega) (by omega)

/-- Modelled from the spec: var-int reader (fuel-bounded at five bytes,
as the protocol caps var-ints at five bytes). -/
def readVarIntAux : Nat → Nat → Nat → List Nat → Except DecodeErr (Nat × List Nat)
  | 0, _, _, _ => .error .malformed
  | _ + 1, _, _, [] => .error .eof
  | fuel + 1, shift, acc, b :: rest =>
    let acc' := acc + b % 128 * 2 ^ shift
    if b < 128 then .ok (acc', rest) else readVarIntAux fuel (shift + 7) acc' rest

/-- `push_i8`. -/
def pushI8 (v : Int) : List Nat := [(v.emod 256).toNat]

/-- `try_get_i8`. -/
def tryGetI8 : List Nat → Except DecodeErr (Int × List Nat)
  | [] => .error .eof
  | b :: rest => .ok (toSigned8 b, rest)

/-- `push_i32`. -/
def pushI32 (v : Int) : List Nat := beBytes 4 (u32ofInt v)

/-- `try_get_i32`. -/
def tryGetI32 (l : List Nat) : Except DecodeErr (Int × List Nat) :=
  match readBE 4 0 l with
  | .ok (u, r) => .ok (toSigned32 u, r)
  | .error e => .error e

/-- `push_f64`: a double is written as its 64-bit pattern, big-endian. -/
def pushF64 (bits : Nat) : List Nat := beBytes 8 bits

/-- `try_get_f64`: reads the 64-bit pattern back; the value is copied,
never recomputed. -/
def tryGetF64 (l : List Nat) : Except DecodeErr (Nat × List Nat) := readBE 8 0 l

/-- `push_uuid`: the 128-bit identifier as 16 big-endian bytes. -/
def pushUuid (u : Nat) : List Nat := beBytes 16 u

/-- `try_get_uuid`. -/
def tryGetUuid (l : List Nat) : Except DecodeErr (Nat × List Nat) := readBE 16 0 l

/-- `push_var_int` on an `i32` value. -/
def pushVarInt (v : Int) : List Nat := varIntBytes (u32ofInt v)

/-- `try_get_var_int`, yielding the `i32` reading of the pattern. -/
def tryGetVarInt (l : List Nat) : Except DecodeErr (Int × List Nat) :=
  match readVarIntAux 5 0 0 l with
  | .ok (u, r) => .ok (toSigned32 u, r)
  | .error e => .error e

/-- Read exactly `n` raw bytes. -/
def readBytes (n : Nat) (l : List Nat) : Except DecodeErr (List Nat × List Nat) :=
  if n ≤ l.length then .ok (l.take n, l.drop n) else .error .eof

/-- `push_string`: var-int byte length, then the bytes.  A Rust `String`
key is modelled by its UTF-8 byte sequence. -/
def pushString (s : List Nat) : List Nat := pushVarInt (s.length : Int) ++ s

/-- `try_get_string` (UTF-8 validation is outside the model: keys are
byte sequences). -/
def tryGetString (l : List Nat) : Except DecodeErr (List Nat × List Nat) :=
  match tryGetVarInt l with
  | .ok (n, r) => if n < 0 then .error .malformed else readBytes n.toNat r
  | .error e => .error e

/-! ### Primitive round-trip lemmas -/

theorem readBE_beBytes (w : Nat) : ∀ (n acc : Nat) (rest : List Nat), n < 256 ^ w →
    readBE w acc (beBytes w n ++ rest) = .ok (acc * 256 ^ w + n, rest) := by
  induction w with
  | zero =>
    intro n acc rest hn
    interval_cases n
    simp [beBytes, readBE]
  | succ w ih =>
    intro n acc rest hn
    have hdiv : n / 256 ^ w < 256 := by
      rw [Nat.div_lt_iff_lt_mul (Nat.pos_pow_of_pos w (by omega))]
      calc n < 256 ^ (w + 1) := hn
        _ = 256 * 256 ^ w := by rw [Nat.pow_succ]; ring
    simp only [beBytes, List.cons_append, List.append_eq, readBE]
    rw [Nat.mod_eq_of_lt hdiv,
      ih (n % 256 ^ w) (acc * 256 + n / 256 ^ w) rest
        (Nat.mod_lt _ (Nat.pos_pow_of_pos w (by omega)))]
    have hsplit := Nat.div_add_mod n (256 ^ w)
    have hpow : 256 ^ (w + 1) = 256 ^ w * 256 := Nat.pow_succ 256 w
    have harith : (acc * 256 + n / 256 ^ w) * 256 ^ w + n % 256 ^ w =
        acc * 256 ^ (w + 1) + n := by
      calc (acc * 256 + n / 256 ^ w) * 256 ^ w + n % 256 ^ w
          = acc * (256 ^ w * 256) + (256 ^ w * (n / 256 ^ w) + n % 256 ^ w) := by ring
        _ = acc * 256 ^ (w + 1) + n := by rw [hsplit, ← hpow]
    rw [harith]

theorem readVarIntAux_varIntBytes (fuel : Nat) : ∀ (u shift acc : Nat) (rest : List Nat),
    u < 2 ^ (7 * (fuel + 1)) →
    readVarIntAux (fuel + 1) shift acc (varIntBytes u ++ rest) =
      .ok (acc + u * 2 ^ shift, rest) := by
  induction fuel with
  | zero =>
    intro u shift acc rest hu
    have h128 : u < 128 := by norm_num at hu; omega
    rw [varIntBytes, dif_pos h128]
    show readVarIntAux 1 shift acc (u :: rest) = .ok (acc + u * 2 ^ shift, rest)
    simp only [readVarIntAux, Nat.mod_eq_of_lt h128, if_pos h128]
  | succ fuel ih =>
    intro u shift acc rest hu
    by_cases h128 : u < 128
    · rw [varIntBytes, dif_pos h128]
      show readVarIntAux (fuel + 2) shift acc (u :: rest) = .ok (acc + u * 2 ^ shift, rest)
      simp only [readVarIntAux, Nat.mod_eq_of_lt h128, if_pos h128]
    · rw [varIntBytes, dif_neg h128]
      show readVarIntAux (fuel + 2) shift acc ((u % 128 + 128) :: (varIntBytes (u / 128) ++ rest)) =
        .ok (acc + u * 2 ^ shift, rest)
      simp only [readVarIntAux]
      rw [if_neg (by omega)]
      have hdiv : u / 128 < 2 ^ (7 * (fuel + 1)) := by
        rw [Nat.div_lt_iff_lt_mul (by omega)]
        calc u < 2 ^ (7 * (fuel + 1 + 1)) := hu
          _ = 2 ^ (7 * (fuel + 1)) * 128 := by
            rw [show 7 * (fuel + 1 + 1) = 7 * (fuel + 1) + 7 by ring, Nat.pow_add]
      rw [ih (u / 128) (shift + 7) (acc + (u % 128 + 128) % 128 * 2 ^ shift) rest hdiv]
      have hmm : (u % 128 + 128) % 128 = u % 128 := by omega
      have hsplit := Nat.div_add_mod u 128
      have hpow : 2 ^ (shift + 7) = 2 ^ shift * 128 := by rw [Nat.pow_add]
      have harith : acc + (u % 128 + 128) % 128 * 2 ^ shift + u / 128 * 2 ^ (shift + 7) =
          acc + u * 2 ^ shift := by
        rw [hmm]
        calc acc + u % 128 * 2 ^ shift + u / 128 * 2 ^ (shift + 7)
            = acc + (128 * (u / 128) + u % 128) * 2 ^ shift := by rw [hpow]; ring
          _ = acc + u * 2 ^ shift := by rw [hsplit]
      rw [harith]

theorem tryGetVarInt_pushVarInt (n : Nat) (rest : List Nat) (h : n < 2 ^ 31) :
    tryGetVarInt (pushVarInt (n : Int) ++ rest) = .ok ((n : Int), rest) := by
  have hu : u32ofInt (n : Int) = n := by
    have h32 : (n : Int) < 2 ^ 32 := by
      exact_mod_cast lt_trans h (by norm_num : (2 : Nat) ^ 31 < 2 ^ 32)
    simp only [u32ofInt]
    rw [show ((n : Int).emod (2 ^ 32)) = (n : Int) % 2 ^ 32 from rfl,
      Int.emod_eq_of_lt (Int.natCast_nonneg n) h32]
    simp
  simp only [tryGetVarInt, pushVarInt, hu]
  rw [show (5 : Nat) = 4 + 1 by rfl,
    readVarIntAux_varIntBytes 4 n 0 0 rest (by norm_num at h ⊢; omega)]
  simp only [Nat.zero_add, Nat.pow_zero, Nat.mul_one]
  rw [toSigned32_of_lt h]

theorem readBytes_self (s rest : List Nat) :
    readBytes s.length (s ++ rest) = .ok (s, rest) := by
  simp only [readBytes, List.length_append]
  rw [if_pos (by omega), List.take_left, List.drop_left]

theorem tryGetString_pushString (s rest : List Nat) (h : s.length < 2 ^ 31) :
    tryGetString (pushString s ++ rest) = .ok (s, rest) := by
  have hv := tryGetVarInt_pushVarInt s.length (s ++ rest) h
  simp only [pushString, List.append_assoc, tryGetString, hv]
  rw [if_neg (by exact not_lt.mpr (Int.natCast_nonneg _))]
  simp only [Int.toNat_natCast]
  exact readBytes_self s rest

/-! ## Entity properties data model (`core/src/entityproperty.rs`)

`EntityProperties` wraps a `BTreeMap<String, EntityProperty>`, modelled
as an association list strictly sorted by key (the order in which a
`BTreeMap` iterates).  A key is the UTF-8 byte sequence of the `String`;
an `f64` is its 64-bit pattern. -/

structure PropertyModifier where
  uuid : Nat
  amount : Nat
  operation : ModifierOperation
  deriving DecidableEq, Repr

structure EntityProperty where
  base_value : Nat
  modifiers : List PropertyModifier
  deriving DecidableEq, Repr

/-- `EntityProperty::add_modifier`: appends, never deduplicates. -/
def EntityProperty.add_modifier (p : EntityProperty) (m : PropertyModifier) :
    EntityProperty :=
  { p with modifiers := p.modifiers ++ [m] }

/-- Strict lexicographic byte order on keys (the `Ord` instance a Rust
`BTreeMap<String, _>` sorts by). -/
def keyLt : List Nat → List Nat → Bool
  | [], [] => false
  | [], _ :: _ => true
  | _ :: _, [] => false
  | a :: as', b :: bs' => a < b || (a = b && keyLt as' bs')

structure EntityProperties where
  props : List (List Nat × EntityProperty)
  deriving DecidableEq, Repr

/-- `BTreeMap::insert` on the sorted association list (replaces the
value when the key is already present). -/
def mapInsert (k : List Nat) (v : EntityProperty) :
    List (List Nat × EntityProperty) → List (List Nat × EntityProperty)
  | [] => [(k, v)]
  | (k', v') :: rest =>
    if keyLt k k' then (k, v) :: (k', v') :: rest
    else if k = k' then (k, v) :: rest
    else (k', v') :: mapInsert k v rest

/-- `BTreeMap::get` (`EntityProperties::get_property`). -/
def getProperty (k : List Nat) : List (List Nat × EntityProperty) → Option EntityProperty
  | [] => none
  | (k', v') :: rest => if k' = k then some v' else getProperty k rest

/-! ## Entity properties wire codec (`core/src/entityproperty.rs`) -/

/-- `push_modifier`: 128-bit identifier, amount, operation byte. -/
def push_modifier (m : PropertyModifier) : List Nat :=
  pushUuid m.uuid ++ pushF64 m.amount ++ pushI8 m.operation.to_protocol

/-- `push_property`: base value, var-int modifier count, then each
modifier (count encoded via `len() as i32`). -/
def push_property (p : EntityProperty) : List Nat :=
  pushF64 p.base_value ++ pushVarInt (p.modifiers.length : Int) ++
    p.modifiers.flatMap push_modifier

/-- `push_properties`: `i32` property count, then each key/property pair
in `BTreeMap` iteration (sorted) order. -/
def push_properties (ps : EntityProperties) : List Nat :=
  pushI32 (ps.props.length : Int) ++
    ps.props.flatMap (fun e => pushString e.1 ++ push_property e.2)

/-- `try_get_modifier`: the operation byte goes through
`ModifierOperation::from_protocol(..).unwrap()`, so an unknown byte is a
panic, not an error result. -/
def try_get_modifier (l : List Nat) : Except DecodeErr (PropertyModifier × List Nat) :=
  match tryGetUuid l with
  | .error e => .error e
  | .ok (uuid, r1) =>
    match tryGetF64 r1 with
    | .error e => .error e
    | .ok (amount, r2) =>
      match tryGetI8 r2 with
      | .error e => .error e
      | .ok (opByte, r3) =>
        match ModifierOperation.from_protocol opByte with
        | none => .error .panicked
        | some op => .ok (⟨uuid, amount, op⟩, r3)

/-- The `for _ in 0..num_modifiers` read loop of `try_get_property`
(`num_modifiers` is an `i32`; a non-positive count runs zero times). -/
def readModifiers : Nat → List Nat → Except DecodeErr (List PropertyModifier × List Nat)
  | 0, l => .ok ([], l)
  | n + 1, l =>
    match try_get_modifier l with
    | .error e => .error e
    | .ok (m, r) =>
      match readModifiers n r with
      | .error e => .error e
      | .ok (ms, r') => .ok (m :: ms, r')

/-- `try_get_property`. -/
def try_get_property (l : List Nat) : Except DecodeErr (EntityProperty × List Nat) :=
  match tryGetF64 l with
  | .error e => .error e
  | .ok (value, r1) =>
    match tryGetVarInt r1 with
    | .error e => .error e
    | .ok (numModifiers, r2) =>
      match readModifiers numModifiers.toNat r2 with
      | .error e => .error e
      | .ok (ms, r3) => .ok (⟨value, ms⟩, r3)

/-- The `for _ in 0..num_props` read loop of `try_get_properties`,
inserting each decoded pair into the map. -/
def readProps : Nat → List (List Nat × EntityProperty) → List Nat →
    Except DecodeErr (List (List Nat × EntityProperty) × List Nat)
  | 0, acc, l => .ok (acc, l)
  | n + 1, acc, l =>
    match tryGetString l with
    | .error e => .error e
    | .ok (key, r1) =>
      match try_get_property r1 with
      | .error e => .error e
      | .ok (p, r2) => readProps n (mapInsert key p acc) r2

/-- `try_get_properties`. -/
def try_get_properties (l : List Nat) : Except DecodeErr (EntityProperties × List Nat) :=
  match tryGetI32 l with
  | .error e => .error e
  | .ok (numProps, r1) =>
    match readProps numProps.toNat [] r1 with
    | .error e => .error e
    | .ok (props, r2) => .ok (⟨props⟩, r2)

/-! ### Well-formedness of a validly-constructed property set -/

/-- A modifier a Rust value can actually hold: a 128-bit id and a 64-bit
double pattern. -/
def wfModifier (m : PropertyModifier) : Bool :=
  m.uuid < 2 ^ 128 && m.amount < 2 ^ 64

/-- A property a Rust value can actually hold (`Vec` length below
`i32::MAX`, as `len() as i32` must not wrap). -/
def wfProperty (p : EntityProperty) : Bool :=
  p.base_value < 2 ^ 64 && p.modifiers.length < 2 ^ 31 &&
    p.modifiers.all wfModifier

/-- A key is a byte string of `i32`-bounded length. -/
def wfKey (k : List Nat) : Bool :=
  k.length < 2 ^ 31 && k.all (· < 256)

/-- Every key strictly precedes every later key (`BTreeMap` order). -/
def keysSorted : List (List Nat × EntityProperty) → Bool
  | [] => true
  | e :: rest => rest.all (fun e' => keyLt e.1 e'.1) && keysSorted rest

/-- A validly-constructed `EntityProperties` value. -/
def wfProperties (ps : EntityProperties) : Bool :=
  ps.props.length < 2 ^ 31 && keysSorted ps.props &&
    ps.props.all (fun e => wfKey e.1 && wfProperty e.2)

/-! ### Codec round-trip (claim C3 groundwork) -/

theorem u32ofInt_natCast {n : Nat} (h : n < 2 ^ 32) : u32ofInt (n : Int) = n := by
  have h32 : (n : Int) < 2 ^ 32 := by exact_mod_cast h
  simp only [u32ofInt]
  rw [show ((n : Int).emod (2 ^ 32)) = (n : Int) % 2 ^ 32 from rfl,
    Int.emod_eq_of_lt (Int.natCast_nonneg n) h32]
  simp

theorem tryGetI32_pushI32 (n : Nat) (rest : List Nat) (h : n < 2 ^ 31) :
    tryGetI32 (pushI32 (n : Int) ++ rest) = .ok ((n : Int), rest) := by
  have h32 : n < 2 ^ 32 := lt_trans h (by norm_num)
  have h4 : n < 256 ^ 4 := by norm_num at h32 ⊢; omega
  simp only [tryGetI32, pushI32, u32ofInt_natCast h32,
    readBE_beBytes 4 n 0 rest h4, Nat.zero_mul, Nat.zero_add]
  rw [toSigned32_of_lt h]

theorem tryGetUuid_pushUuid (u : Nat) (rest : List Nat) (h : u < 2 ^ 128) :
    tryGetUuid (pushUuid u ++ rest) = .ok (u, rest) := by
  have h16 : u < 256 ^ 16 := by norm_num at h ⊢; omega
  simp only [tryGetUuid, pushUuid, readBE_beBytes 16 u 0 rest h16,
    Nat.zero_mul, Nat.zero_add]

theorem tryGetF64_pushF64 (bits : Nat) (rest : List Nat) (h : bits < 2 ^ 64) :
    tryGetF64 (pushF64 bits ++ rest) = .ok (bits, rest) := by
  have h8 : bits < 256 ^ 8 := by norm_num at h ⊢; omega
  simp only [tryGetF64, pushF64, readBE_beBytes 8 bits 0 rest h8,
    Nat.zero_mul, Nat.zero_add]

theorem from_protocol_to_protocol (op : ModifierOperation) :
    ModifierOperation.from_protocol op.to_protocol = some op := by
  cases op <;> rfl

theorem tryGetI8_push_to_protocol (op : ModifierOperation) (rest : List Nat) :
    tryGetI8 (pushI8 op.to_protocol ++ rest) = .ok (op.to_protocol, rest) := by
  cases op <;> rfl

theorem try_get_modifier_push (m : PropertyModifier) (rest : List Nat)
    (h : wfModifier m = true) :
    try_get_modifier (push_modifier m ++ rest) = .ok (m, rest) := by
  simp only [wfModifier, Bool.and_eq_true, decide_eq_true_eq] at h
  obtain ⟨hu, ha⟩ := h
  simp only [push_modifier, List.append_assoc, try_get_modifier,
    tryGetUuid_pushUuid m.uuid _ hu, tryGetF64_pushF64 m.amount _ ha,
    tryGetI8_push_to_protocol m.operation rest,
    from_protocol_to_protocol m.operation]

theorem readModifiers_push (ms : List PropertyModifier) (rest : List Nat)
    (h : ms.all wfModifier = true) :
    readModifiers ms.length (ms.flatMap push_modifier ++ rest) = .ok (ms, rest) := by
  induction ms with
  | nil => simp [readModifiers]
  | cons m ms ih =>
    simp only [List.all_cons, Bool.and_eq_true] at h
    simp only [List.flatMap_cons, List.append_assoc, List.length_cons, readModifiers,
      try_get_modifier_push m _ h.1, ih h.2]

theorem try_get_property_push (p : EntityProperty) (rest : List Nat)
    (h : wfProperty p = true) :
    try_get_property (push_property p ++ rest) = .ok (p, rest) := by
  simp only [wfProperty, Bool.and_eq_true, decide_eq_true_eq] at h
  obtain ⟨⟨hb, hlen⟩, hms⟩ := h
  simp only [push_property, List.append_assoc, try_get_property,
    tryGetF64_pushF64 p.base_value _ hb,
    tryGetVarInt_pushVarInt p.modifiers.length _ hlen]
  simp only [Int.toNat_natCast, readModifiers_push p.modifiers rest hms]

theorem keyLt_asymm : ∀ (a b : List Nat), keyLt a b = true →
    keyLt b a = false ∧ a ≠ b := by
  intro a
  induction a with
  | nil =>
    intro b h
    cases b with
    | nil => simp [keyLt] at h
    | cons x xs => exact ⟨rfl, by simp⟩
  | cons x xs ih =>
    intro b h
    cases b with
    | nil => simp [keyLt] at h
    | cons y ys =>
      simp only [keyLt, Bool.or_eq_true, Bool.and_eq_true, decide_eq_true_eq] at h ⊢
      rcases h with hlt | ⟨heq, hk⟩
      · constructor
        · simp only [Bool.or_eq_false_iff, Bool.and_eq_false_iff, decide_eq_false_iff_not]
          exact ⟨by omega, Or.inl (by omega)⟩
        · intro hc
          injection hc with h1 h2
          omega
      · obtain ⟨hk', hne⟩ := ih ys hk
        constructor
        · simp only [Bool.or_eq_false_iff, Bool.and_eq_false_iff, decide_eq_false_iff_not]
          exact ⟨by omega, Or.inr hk'⟩
        · intro hc
          injection hc with h1 h2
          exact hne h2

theorem mapInsert_append (k : List Nat) (v : EntityProperty) :
    ∀ (acc : List (List Nat × EntityProperty)),
    (∀ e ∈ acc, keyLt e.1 k = true) →
    mapInsert k v acc = acc ++ [(k, v)] := by
  intro acc
  induction acc with
  | nil => intro _; rfl
  | cons e rest ih =>
    intro hall
    have he : keyLt e.1 k = true := hall e (by simp)
    obtain ⟨hlt, hne⟩ := keyLt_asymm e.1 k he
    simp only [mapInsert, hlt, if_false, Bool.false_eq_true]
    rw [if_neg (fun hc => hne hc.symm),
      ih (fun e' he' => hall e' (List.mem_cons_of_mem e he'))]
    rfl

theorem readProps_push : ∀ (props acc : List (List Nat × EntityProperty)) (rest : List Nat),
    props.all (fun e => wfKey e.1 && wfProperty e.2) = true →
    keysSorted props = true →
    (∀ e ∈ acc, ∀ e' ∈ props, keyLt e.1 e'.1 = true) →
    readProps props.length acc
        (props.flatMap (fun e => pushString e.1 ++ push_property e.2) ++ rest) =
      .ok (acc ++ props, rest) := by
  intro props
  induction props with
  | nil => intro acc rest _ _ _; simp [readProps]
  | cons e props ih =>
    intro acc rest hwf hsort hacc
    simp only [List.all_cons, Bool.and_eq_true] at hwf
    obtain ⟨⟨hkey, hprop⟩, hwf'⟩ := hwf
    simp only [keysSorted, Bool.and_eq_true] at hsort
    obtain ⟨hless, hsort'⟩ := hsort
    simp only [wfKey, Bool.and_eq_true, decide_eq_true_eq] at hkey
    simp only [List.flatMap_cons, List.append_assoc, List.length_cons, readProps,
      tryGetString_pushString e.1 _ hkey.1,
      try_get_property_push e.2 _ hprop]
    rw [mapInsert_append e.1 e.2 acc (fun e' he' => hacc e' he' e (by simp))]
    have hacc' : ∀ e' ∈ acc ++ [e], ∀ e'' ∈ props, keyLt e'.1 e''.1 = true := by
      intro e' he' e'' he''
      rcases List.mem_append.mp he' with h | h
      · exact hacc e' h e'' (List.mem_cons_of_mem e he'')
      · rw [List.mem_singleton.mp h]
        exact (List.all_eq_true.mp hless) e'' he''
    rw [show (e.1, e.2) = e from rfl]
    rw [ih (acc ++ [e]) rest hwf' hsort' hacc']
    simp

/-- Full decode∘encode identity on validly-constructed property sets. -/
theorem try_get_properties_push (ps : EntityProperties) (h : wfProperties ps = true) :
    try_get_properties (push_properties ps) = .ok (ps, []) := by
  simp only [wfProperties, Bool.and_eq_true, decide_eq_true_eq] at h
  obtain ⟨⟨hlen, hsort⟩, hwf⟩ := h
  have henc : push_properties ps =
      pushI32 (ps.props.length : Int) ++
        (ps.props.flatMap (fun e => pushString e.1 ++ push_property e.2) ++ []) := by
    simp [push_properties]
  simp only [try_get_properties, henc,
    tryGetI32_pushI32 ps.props.length _ hlen]
  simp only [Int.toNat_natCast,
    readProps_push ps.props [] [] hwf hsort (by intro e h; simp at h)]
  simp


/-! ## Server-side effect records and scheduler
(`server/src/entity/effect.rs`, `server/src/entity/properties.rs`)

Per-entity state is modelled directly; the `fecs` world queries become
functions over one entity's components (the systems act independently
per entity), and broadcast becomes returning the packet list.  Packet
positions are omitted: they tag each packet with the entity's unchanged
position and play no part in any claim. -/

/-- Modelled from the spec: the fixed ticks-per-second constant `TPS`
(20 simulation ticks per second), used when a basic-effect packet
encodes its duration in seconds. -/
def TPS : Nat := 20

/-- The `EntityEffect` packet. -/
structure EntityEffect where
  entity_id : Int
  effect_id : Int
  amplifier : Int
  duration : Int
  flags : Int
  deriving DecidableEq, Repr

/-- The `RemoveEntityEffect` packet. -/
structure RemoveEntityEffect where
  entity_id : Int
  effect_id : Int
  deriving DecidableEq, Repr

/-- The server `Error` enum: `InvalidStatusEffect` is the
`UnsupportedEffectKind` error of the spec. -/
inductive EffectError where
  | InvalidStatusEffect (effect : StatusEffect)
  deriving DecidableEq, Repr

structure BasicStatusEffect where
  entity_id : Int
  amplifier : Nat
  time_start : Int
  duration : Nat
  effect_type : StatusEffect
  flags : Int
  deriving DecidableEq, Repr

/-- `BasicStatusEffect::new`.  The body is `Ok(..)` unconditionally
(the `//TODO: Validate that the provided effect type is basic` check is
not implemented); `amplifier` is the `u8` subtraction `level - 1`. -/
def BasicStatusEffect.new (entity_id : Int) (level : Nat) (duration : Nat)
    (effect_type : StatusEffect) (flags : Int) :
    Except EffectError BasicStatusEffect :=
  .ok { entity_id := entity_id, amplifier := u8Sub level 1, time_start := -1,
        duration := duration, effect_type := effect_type, flags := flags }

/-- `BasicStatusEffect::create_packet`: duration is sent as
`(duration / TPS) as i32`. -/
def BasicStatusEffect.create_packet (e : BasicStatusEffect) : EntityEffect :=
  { entity_id := e.entity_id
    effect_id := e.effect_type.protocol_id
    amplifier := toSigned8 e.amplifier
    duration := toSigned32 (e.duration / TPS)
    flags := e.flags }

/-- Wrapping `i8` arithmetic result (release-build semantics). -/
def i8Wrap (v : Int) : Int := toSigned8 (v.emod 256).toNat

structure SpeedEffect where
  entity_id : Int
  amplifier : Int
  start_time : Nat
  duration : Nat
  new : Bool
  deriving DecidableEq, Repr

/-- `SpeedEffect::new` (the constructor; named apart from the `new`
field): `amplifier` is the `i8` subtraction `level - 1`. -/
def SpeedEffect.create (entity_id : Int) (level : Int) (duration : Nat) : SpeedEffect :=
  { entity_id := entity_id, amplifier := i8Wrap (level - 1),
    start_time := 0, duration := duration, new := true }

/-! ### `update_basic_effects`: activation, expiration, resync -/

/-- The activation loop of `update_basic_effects` over one collection:
each effect with `time_start < 0` is stamped with `now as i64` and its
start packet is pushed, in iteration order. -/
def activateLoop (now : Nat) : List BasicStatusEffect →
    List BasicStatusEffect × List EntityEffect
  | [] => ([], [])
  | e :: rest =>
    let r := activateLoop now rest
    if e.time_start < 0 then
      let e' := { e with time_start := i64ofU64 now }
      (e' :: r.1, e'.create_packet :: r.2)
    else (e :: r.1, r.2)

/-- The activation phase for one collection, including the
`filter(|(effects, _)| effects.0.iter().any(|e| e.time_start < 0))`
guard on the query. -/
def activateCollection (now : Nat) (effects : List BasicStatusEffect) :
    List BasicStatusEffect × List EntityEffect :=
  if effects.any (fun e => decide (e.time_start < 0)) then activateLoop now effects
  else (effects, [])

/-- `Vec::remove(i)`: `none` models the index-out-of-bounds panic. -/
def removeAtIdx (l : List BasicStatusEffect) (i : Nat) :
    Option (List BasicStatusEffect) :=
  if i < l.length then some (l.eraseIdx i) else none

/-- The expiration loop of `update_basic_effects` over one collection:
iterate `effects.0.clone()` with the enumeration index `i`, and for
every stale entry push a remove packet and call `effects.0.remove(i)` on
the *live* vector with the *snapshot* index.  `none` models the panic of
an out-of-range `remove`; packets accumulated before a panic are lost
with the unwind (they are only broadcast after the loop). -/
def expireLoop (now : Nat) : List BasicStatusEffect → Nat → List BasicStatusEffect →
    List RemoveEntityEffect → Option (List BasicStatusEffect × List RemoveEntityEffect)
  | [], _, live, pkts => some (live, pkts)
  | e :: rest, i, live, pkts =>
    let remaining := e.time_start + i64ofU64 e.duration - i64ofU64 now
    if remaining ≤ 0 then
      match removeAtIdx live i with
      | none => none
      | some live' =>
        expireLoop now rest (i + 1) live'
          (pkts ++ [{ entity_id := e.entity_id, effect_id := e.effect_type.protocol_id }])
    else expireLoop now rest (i + 1) live pkts

/-- The expiration phase on one collection (the snapshot copy is the
collection itself at phase start). -/
def expireCollection (now : Nat) (effects : List BasicStatusEffect) :
    Option (List BasicStatusEffect × List RemoveEntityEffect) :=
  expireLoop now effects 0 effects []

/-- `remaining_time = (effect.time_start as u64) + effect.duration - now`,
computed in wrapping `u64` arithmetic exactly as the resync scan does. -/
def resyncRemaining (now : Nat) (e : BasicStatusEffect) : Nat :=
  u64Sub (u64Add (u64ofInt e.time_start) e.duration) now

/-- The refresh packet the resync scan sends for one effect when
`remaining_time % 600 == 0` (duration field carries
`remaining_time as i32`), and `none` otherwise. -/
def resyncPacketFor (now : Nat) (e : BasicStatusEffect) : Option EntityEffect :=
  let remaining := resyncRemaining now e
  if remaining % 600 = 0 then
    some { entity_id := e.entity_id, effect_id := e.effect_type.protocol_id,
           amplifier := toSigned8 e.amplifier, duration := toSigned32 remaining,
           flags := e.flags }
  else none

/-- The resync scan over one collection. -/
def resyncCollection (now : Nat) (effects : List BasicStatusEffect) : List EntityEffect :=
  effects.filterMap (resyncPacketFor now)

/-- One tick of `update_basic_effects` on one entity's collection:
activation, then expiration (only when `tick_count % 5 == 0`), then the
resync scan; yields the surviving collection and the start, remove and
refresh packet lists.  `none` is a panic during expiration. -/
def update_basic_effects (now : Nat) (effects : List BasicStatusEffect) :
    Option (List BasicStatusEffect × List EntityEffect ×
      List RemoveEntityEffect × List EntityEffect) :=
  let a := activateCollection now effects
  if now % 5 = 0 then
    match expireCollection now a.1 with
    | none => none
    | some (live, removes) => some (live, a.2, removes, resyncCollection now live)
  else some (a.1, a.2, [], resyncCollection now a.1)

/-! ### `update_speed_effects` and the attribute poller -/

/-- The UTF-8 bytes of the key `generic.movementSpeed`. -/
def movementSpeedKey : List Nat :=
  [103, 101, 110, 101, 114, 105, 99, 46, 109, 111, 118, 101,
   109, 101, 110, 116, 83, 112, 101, 101, 100]

/-- The fixed 128-bit modifier identifier
`91AEAA56-376B-4498-935B-2F7F68070635` hard-coded for the speed effect. -/
def speedModifierUuid : Nat := 0x91AEAA56376B4498935B2F7F68070635

/-- The `f64` bit pattern of `0.2`, the constant magnitude the code
passes to `PropertyModifier::new` regardless of the amplifier. -/
def bitsOfPoint2 : Nat := 0x3FC999999999999A

/-- The `f64` bit pattern of `0.4` (which `0.2` per amplifier level
would require at amplifier level 2). -/
def bitsOfPoint4 : Nat := 0x3FD999999999999A

/-- The modifier `update_speed_effects` injects. -/
def speedModifier : PropertyModifier :=
  { uuid := speedModifierUuid, amount := bitsOfPoint2, operation := .Multiply }

/-- The server-side `EntityProperties` component wrapping the core map
with the broadcast dirty flag (fields as used by the poller). -/
structure ServerEntityProperties where
  dirty : Bool
  inner : EntityProperties
  deriving DecidableEq, Repr

/-- `get_property_mut(key).unwrap().add_modifier(m)` on the sorted map;
`none` models the `unwrap` panic when the attribute is absent. -/
def addModifierToProps (k : List Nat) (m : PropertyModifier) :
    List (List Nat × EntityProperty) → Option (List (List Nat × EntityProperty))
  | [] => none
  | (k', p) :: rest =>
    if k' = k then some ((k', p.add_modifier m) :: rest)
    else
      match addModifierToProps k m rest with
      | none => none
      | some rest' => some ((k', p) :: rest')

/-- One entity's step of the `update_speed_effects` system: on a new
effect, inject the fixed speed modifier into `generic.movementSpeed`
(marking the set dirty — mutable access to the component marks it,
modelled from the spec's dirty-flag protocol), stamp `start_time = now`,
clear `new`, and emit the start packet; otherwise do nothing. -/
def update_speed_effects (now : Nat) (eff : SpeedEffect)
    (props : ServerEntityProperties) :
    Option (SpeedEffect × ServerEntityProperties × List EntityEffect) :=
  if eff.new then
    match addModifierToProps movementSpeedKey speedModifier props.inner.props with
    | none => none
    | some inner' =>
      some ({ eff with start_time := now, new := false },
            { dirty := true, inner := ⟨inner'⟩ },
            [{ entity_id := eff.entity_id,
               effect_id := StatusEffect.Speed.protocol_id,
               amplifier := eff.amplifier,
               duration := toSigned32 eff.duration,
               flags := 0 }])
  else some (eff, props, [])

/-- The `EntityProperties` packet of the poller (a snapshot of the set). -/
structure PEntityProperties where
  entity_id : Int
  properties : EntityProperties
  deriving DecidableEq, Repr

/-- `poll_entity_properties_changed` over the entity list: for each
dirty set, emit one snapshot packet and clear the flag; skip the rest. -/
def poll_entity_properties_changed :
    List (Int × ServerEntityProperties) →
      List (Int × ServerEntityProperties) × List PEntityProperties
  | [] => ([], [])
  | (eid, props) :: rest =>
    let r := poll_entity_properties_changed rest
    if props.dirty then
      ((eid, { dirty := false, inner := props.inner }) :: r.1,
       { entity_id := eid, properties := props.inner } :: r.2)
    else ((eid, props) :: r.1, r.2)

/-! ## Claim theorems -/

/-- C8: for every one of the 32 effect kinds, decoding the wire code
yields the kind back (`from_protocol_id (protocol_id k) = some k`), the
wire code is the enumeration index plus 1, and the code 0 is never
produced by encoding. -/
theorem c8_effect_kind_wire_roundtrip (k : StatusEffect) :
    StatusEffect.from_protocol_id k.protocol_id = some k ∧
      k.protocol_id = (k.toIndex : Int) + 1 ∧ k.protocol_id ≠ 0 := by
  cases k <;> exact ⟨rfl, rfl, by decide⟩

/-- C2 (code evaluated at the failing input): `BasicStatusEffect::new`
succeeds for `Speed` — a kind with a specialized handler — instead of
returning the `UnsupportedEffectKind`/`InvalidStatusEffect` error; the
validation is a `TODO` in the source. -/
theorem c2_construction_accepts_specialized_kind :
    BasicStatusEffect.new 7 1 1200 StatusEffect.Speed 0 =
      .ok { entity_id := 7, amplifier := 0, time_start := -1, duration := 1200,
            effect_type := StatusEffect.Speed, flags := 0 } := by
  rfl

/-- C4 (code evaluated at the failing input): a modifier whose
operation byte is `3` makes `try_get_modifier` panic through
`from_protocol(..).unwrap()` instead of surfacing a malformed-packet
error result, even though `from_protocol` itself returns `None`. -/
theorem c4_unknown_operation_byte_panics :
    try_get_modifier (List.replicate 24 0 ++ [3]) = .error .panicked ∧
      ModifierOperation.from_protocol 3 = none := by
  exact ⟨by rfl, rfl⟩

/-- C10: under the unstated precondition `level ≥ 1` the `u8`
subtraction in `BasicStatusEffect::new` is safe and the amplifier is
exactly `level - 1`; at `level = 0` it underflows (debug panic) and
wraps to 255 under two's-complement semantics. -/
theorem c10_level_precondition (eid : Int) (level dur : Nat) (ty : StatusEffect)
    (fl : Int) (h : level < 256) :
    (BasicStatusEffect.new eid level dur ty fl =
      .ok { entity_id := eid, amplifier := u8Sub level 1, time_start := -1,
            duration := dur, effect_type := ty, flags := fl }) ∧
    (1 ≤ level → u8Sub level 1 = level - 1 ∧ u8SubUnderflows level 1 = false) ∧
    (level = 0 → u8Sub level 1 = 255 ∧ u8SubUnderflows level 1 = true) := by
  refine ⟨rfl, fun h1 => ⟨u8Sub_of_le h h1, ?_⟩, fun h0 => ⟨by subst h0; rfl, by subst h0; rfl⟩⟩
  simp only [u8SubUnderflows, decide_eq_false_iff_not]
  omega

theorem c10_witness :
    (3 : Nat) < 256 ∧
    ((BasicStatusEffect.new 1 3 600 StatusEffect.Poison 0 =
      .ok { entity_id := 1, amplifier := u8Sub 3 1, time_start := -1,
            duration := 600, effect_type := StatusEffect.Poison, flags := 0 }) ∧
    (1 ≤ 3 → u8Sub 3 1 = 3 - 1 ∧ u8SubUnderflows 3 1 = false) ∧
    ((3 : Nat) = 0 → u8Sub 3 1 = 255 ∧ u8SubUnderflows 3 1 = true)) :=
  ⟨by decide, c10_level_precondition 1 3 600 StatusEffect.Poison 0 (by decide)⟩

/-- C1 (code evaluated at the failing inputs): with two effects expired
on the same `now % 5 == 0` tick, the expiration pass panics
(`Vec::remove(1)` on a one-element vector), so no remove packet is
broadcast at all; and with expired effects at snapshot indices 0 and 2
around live ones, the stale index removes a live effect and leaves an
expired one in the collection. -/
theorem c1_expiration_index_bug :
    update_basic_effects 5
      [{ entity_id := 1, amplifier := 0, time_start := 0, duration := 1,
         effect_type := .Speed, flags := 0 },
       { entity_id := 2, amplifier := 0, time_start := 0, duration := 1,
         effect_type := .Slowness, flags := 0 }] = none ∧
    expireCollection 5
      [{ entity_id := 1, amplifier := 0, time_start := 0, duration := 1,
         effect_type := .Speed, flags := 0 },
       { entity_id := 2, amplifier := 0, time_start := 0, duration := 100,
         effect_type := .Haste, flags := 0 },
       { entity_id := 3, amplifier := 0, time_start := 0, duration := 1,
         effect_type := .Poison, flags := 0 },
       { entity_id := 4, amplifier := 0, time_start := 0, duration := 100,
         effect_type := .Wither, flags := 0 }] =
      some ([{ entity_id := 2, amplifier := 0, time_start := 0, duration := 100,
               effect_type := .Haste, flags := 0 },
             { entity_id := 3, amplifier := 0, time_start := 0, duration := 1,
               effect_type := .Poison, flags := 0 }],
            [{ entity_id := 1, effect_id := 1 }, { entity_id := 3, effect_id := 19 }]) := by
  exact ⟨by rfl, by rfl⟩

/-- C9: one poll emits exactly one snapshot packet per dirty set (none
for clean sets), clears every dirty flag, and a second poll with no
intervening mutation emits nothing. -/
theorem c9_dirty_flag_poll (ents : List (Int × ServerEntityProperties)) :
    (poll_entity_properties_changed ents).2 =
      (ents.filter (fun x => x.2.dirty)).map
        (fun x => { entity_id := x.1, properties := x.2.inner }) ∧
    (poll_entity_properties_changed ents).1 =
      ents.map (fun x => (x.1, { dirty := false, inner := x.2.inner })) ∧
    (poll_entity_properties_changed ((poll_entity_properties_changed ents).1)).2 = [] := by
  induction ents with
  | nil => exact ⟨rfl, rfl, rfl⟩
  | cons ent rest ih =>
    obtain ⟨eid, props⟩ := ent
    obtain ⟨ih1, ih2, ih3⟩ := ih
    by_cases hd : props.dirty
    · refine ⟨?_, ?_, ?_⟩
      · simp [poll_entity_properties_changed, hd, ih1]
      · simp [poll_entity_properties_changed, hd, ih2]
      · simp [poll_entity_properties_changed, hd, ih3]
    · have hfalse : props.dirty = false := by simpa using hd
      have heta : props = { dirty := false, inner := props.inner } := by
        cases props
        simp_all
      refine ⟨?_, ?_, ?_⟩
      · simp [poll_entity_properties_changed, hfalse, ih1]
      · simp only [poll_entity_properties_changed, hfalse, Bool.false_eq_true, if_false,
          List.map_cons, ih2]
        rw [← heta]
      · simp [poll_entity_properties_changed, hfalse, ih3]

/-- C3: decoding the encoding of any validly-constructed property set
succeeds, consumes the whole buffer, and re-encoding the decoded set
yields byte-identical output; the `f64` patterns are carried through
unchanged (they are modelled as bit patterns and only ever copied). -/
theorem c3_properties_roundtrip (ps : EntityProperties) (h : wfProperties ps = true) :
    try_get_properties (push_properties ps) = .ok (ps, []) ∧
    ∃ ps' : EntityProperties,
      try_get_properties (push_properties ps) = .ok (ps', []) ∧
        push_properties ps' = push_properties ps :=
  ⟨try_get_properties_push ps h, ps, try_get_properties_push ps h, rfl⟩

theorem c3_witness :
    wfProperties ⟨[([97], { base_value := 5, modifiers := [] }),
                   ([98], { base_value := 6,
                            modifiers := [{ uuid := 10, amount := 11, operation := .Add },
                                          { uuid := 12, amount := 13, operation := .Multiply }] })]⟩
        = true ∧
    (try_get_properties (push_properties
        ⟨[([97], { base_value := 5, modifiers := [] }),
          ([98], { base_value := 6,
                   modifiers := [{ uuid := 10, amount := 11, operation := .Add },
                                 { uuid := 12, amount := 13, operation := .Multiply }] })]⟩) =
      .ok (⟨[([97], { base_value := 5, modifiers := [] }),
             ([98], { base_value := 6,
                      modifiers := [{ uuid := 10, amount := 11, operation := .Add },
                                    { uuid := 12, amount := 13, operation := .Multiply }] })]⟩, []) ∧
    ∃ ps' : EntityProperties,
      try_get_properties (push_properties
        ⟨[([97], { base_value := 5, modifiers := [] }),
          ([98], { base_value := 6,
                   modifiers := [{ uuid := 10, amount := 11, operation := .Add },
                                 { uuid := 12, amount := 13, operation := .Multiply }] })]⟩) =
        .ok (ps', []) ∧
      push_properties ps' = push_properties
        ⟨[([97], { base_value := 5, modifiers := [] }),
          ([98], { base_value := 6,
                   modifiers := [{ uuid := 10, amount := 11, operation := .Add },
                                 { uuid := 12, amount := 13, operation := .Multiply }] })]⟩) :=
  ⟨by decide,
   c3_properties_roundtrip
     ⟨[([97], { base_value := 5, modifiers := [] }),
       ([98], { base_value := 6,
                modifiers := [{ uuid := 10, amount := 11, operation := .Add },
                              { uuid := 12, amount := 13, operation := .Multiply }] })]⟩
     (by decide)⟩

/-- C5 counterexample: a new speed effect at amplifier 1 (level 2).
The claim's "magnitude 0.2 per amplifier level" calls for the bit
pattern of `0.4` at level 2, but the injected modifier's amount is the
constant `0.2` pattern, independent of the amplifier. -/
theorem c5_counterexample :
    update_speed_effects 10
        { entity_id := 9, amplifier := 1, start_time := 0, duration := 1200, new := true }
        { dirty := false,
          inner := ⟨[(movementSpeedKey, { base_value := 0, modifiers := [] })]⟩ } =
      some ({ entity_id := 9, amplifier := 1, start_time := 10, duration := 1200,
              new := false },
            { dirty := true,
              inner := ⟨[(movementSpeedKey,
                { base_value := 0,
                  modifiers := [{ uuid := speedModifierUuid, amount := bitsOfPoint2,
                                  operation := .Multiply }] })]⟩ },
            [{ entity_id := 9, effect_id := 1, amplifier := 1, duration := 1200,
               flags := 0 }]) ∧
    bitsOfPoint2 ≠ bitsOfPoint4 := by
  exact ⟨by rfl, by decide⟩

/-- C5 (amended): on the first scheduler visit (`new == true`) the
speed handler injects exactly one `Multiply` modifier with the fixed
128-bit identifier and the *fixed* magnitude `0.2` (its bit pattern,
independent of the amplifier) into `generic.movementSpeed`, stamps
`start_time = now`, clears the flag, and emits one start packet; on
every later visit (`new == false`) it adds no modifier and emits
nothing. -/
theorem c5_speed_first_visit (now : Nat) (eff : SpeedEffect)
    (props : ServerEntityProperties) (inner' : List (List Nat × EntityProperty))
    (hnew : eff.new = true)
    (hadd : addModifierToProps movementSpeedKey speedModifier props.inner.props =
      some inner') :
    update_speed_effects now eff props =
      some ({ eff with start_time := now, new := false },
            { dirty := true, inner := ⟨inner'⟩ },
            [{ entity_id := eff.entity_id,
               effect_id := StatusEffect.Speed.protocol_id,
               amplifier := eff.amplifier,
               duration := toSigned32 eff.duration,
               flags := 0 }]) ∧
    speedModifier = { uuid := speedModifierUuid, amount := bitsOfPoint2,
                      operation := .Multiply } ∧
    (∀ (eff' : SpeedEffect) (props' : ServerEntityProperties), eff'.new = false →
      update_speed_effects now eff' props' = some (eff', props', [])) := by
  refine ⟨?_, rfl, ?_⟩
  · simp only [update_speed_effects, hnew, if_true, hadd]
  · intro eff' props' h
    simp only [update_speed_effects, h, Bool.false_eq_true, if_false]

theorem c5_witness :
    ({ entity_id := 9, amplifier := 0, start_time := 0, duration := 1200,
       new := true } : SpeedEffect).new = true ∧
    addModifierToProps movementSpeedKey speedModifier
        [(movementSpeedKey, { base_value := 0, modifiers := [] })] =
      some [(movementSpeedKey, { base_value := 0, modifiers := [speedModifier] })] ∧
    (update_speed_effects 20
        { entity_id := 9, amplifier := 0, start_time := 0, duration := 1200, new := true }
        { dirty := false,
          inner := ⟨[(movementSpeedKey, { base_value := 0, modifiers := [] })]⟩ } =
      some ({ entity_id := 9, amplifier := 0, start_time := 20, duration := 1200,
              new := false },
            { dirty := true,
              inner := ⟨[(movementSpeedKey,
                { base_value := 0, modifiers := [speedModifier] })]⟩ },
            [{ entity_id := 9, effect_id := StatusEffect.Speed.protocol_id,
               amplifier := 0, duration := toSigned32 1200, flags := 0 }]) ∧
      speedModifier = { uuid := speedModifierUuid, amount := bitsOfPoint2,
                        operation := .Multiply } ∧
      (∀ (eff' : SpeedEffect) (props' : ServerEntityProperties), eff'.new = false →
        update_speed_effects 20 eff' props' = some (eff', props', []))) :=
  ⟨rfl, by rfl,
   c5_speed_first_visit 20
     { entity_id := 9, amplifier := 0, start_time := 0, duration := 1200, new := true }
     { dirty := false,
       inner := ⟨[(movementSpeedKey, { base_value := 0, modifiers := [] })]⟩ }
     [(movementSpeedKey, { base_value := 0, modifiers := [speedModifier] })]
     rfl (by rfl)⟩

/-- C6: for a still-active effect (in-range times, `now` strictly before
expiry) the wrapping `u64` remaining-time computation equals the exact
`start_tick + duration_ticks - now`; a refresh packet exists iff that
remaining value is divisible by 600; the packet carries the remaining
duration (as `i32`, exact whenever it fits in 31 bits), not the original
duration; and the collection scan enqueues exactly those packets. -/
theorem c6_resync_iff (now : Nat) (e : BasicStatusEffect)
    (h0 : 0 ≤ e.time_start) (h1 : e.time_start < 2 ^ 63)
    (h2 : e.time_start.toNat + e.duration < 2 ^ 64)
    (h3 : now < e.time_start.toNat + e.duration) :
    resyncRemaining now e = e.time_start.toNat + e.duration - now ∧
    ((resyncPacketFor now e).isSome ↔
      (e.time_start.toNat + e.duration - now) % 600 = 0) ∧
    ((e.time_start.toNat + e.duration - now) % 600 = 0 →
      resyncPacketFor now e =
        some { entity_id := e.entity_id, effect_id := e.effect_type.protocol_id,
               amplifier := toSigned8 e.amplifier,
               duration := toSigned32 (e.time_start.toNat + e.duration - now),
               flags := e.flags }) ∧
    (e.time_start.toNat + e.duration - now < 2 ^ 31 →
      toSigned32 (e.time_start.toNat + e.duration - now) =
        ((e.time_start.toNat + e.duration - now : Nat) : Int)) ∧
    (∀ effects : List BasicStatusEffect,
      resyncCollection now effects = effects.filterMap (resyncPacketFor now)) := by
  have hmod : e.time_start.emod (2 ^ 64) = e.time_start :=
    Int.emod_eq_of_lt h0 (lt_trans h1 (by norm_num))
  have hu : u64ofInt e.time_start = e.time_start.toNat := by
    simp only [u64ofInt, hmod]
  have hrem : resyncRemaining now e = e.time_start.toNat + e.duration - now := by
    simp only [resyncRemaining, u64Sub, u64Add, hu]
    omega
  refine ⟨hrem, ?_, ?_, fun hfit => toSigned32_of_lt hfit, fun _ => rfl⟩
  · simp only [resyncPacketFor, hrem]
    by_cases hm : (e.time_start.toNat + e.duration - now) % 600 = 0
    · simp [hm]
    · simp [hm]
  · intro hm
    simp only [resyncPacketFor, hrem, if_pos hm]

theorem c6_witness :
    (0 : Int) ≤ 0 ∧ (0 : Int) < 2 ^ 63 ∧
    ((0 : Int).toNat + 1200 < 2 ^ 64) ∧ (600 < (0 : Int).toNat + 1200) ∧
    (resyncRemaining 600
        { entity_id := 1, amplifier := 0, time_start := 0, duration := 1200,
          effect_type := .Speed, flags := 0 } =
      (0 : Int).toNat + 1200 - 600 ∧
    ((resyncPacketFor 600
        { entity_id := 1, amplifier := 0, time_start := 0, duration := 1200,
          effect_type := .Speed, flags := 0 }).isSome ↔
      ((0 : Int).toNat + 1200 - 600) % 600 = 0) ∧
    (((0 : Int).toNat + 1200 - 600) % 600 = 0 →
      resyncPacketFor 600
          { entity_id := 1, amplifier := 0, time_start := 0, duration := 1200,
            effect_type := .Speed, flags := 0 } =
        some { entity_id := 1, effect_id := StatusEffect.Speed.protocol_id,
               amplifier := toSigned8 0,
               duration := toSigned32 ((0 : Int).toNat + 1200 - 600),
               flags := 0 }) ∧
    ((0 : Int).toNat + 1200 - 600 < 2 ^ 31 →
      toSigned32 ((0 : Int).toNat + 1200 - 600) =
        (((0 : Int).toNat + 1200 - 600 : Nat) : Int)) ∧
    (∀ effects : List BasicStatusEffect,
      resyncCollection 600 effects = effects.filterMap (resyncPacketFor 600))) :=
  ⟨le_refl 0, by decide, by decide, by decide,
   c6_resync_iff 600
     { entity_id := 1, amplifier := 0, time_start := 0, duration := 1200,
       effect_type := .Speed, flags := 0 }
     (le_refl 0) (by decide) (by decide) (by decide)⟩

/-! ### Activation/expiration helper lemmas (claim C7 groundwork) -/

theorem activateLoop_eq (now : Nat) (h : now < 2 ^ 63) (effects : List BasicStatusEffect) :
    activateLoop now effects =
      (effects.map (fun e =>
         if e.time_start < 0 then { e with time_start := (now : Int) } else e),
       (effects.filter (fun e => decide (e.time_start < 0))).map
         (fun e => BasicStatusEffect.create_packet { e with time_start := (now : Int) })) := by
  induction effects with
  | nil => rfl
  | cons e rest ih =>
    simp only [activateLoop, ih, i64ofU64_of_lt h]
    by_cases hp : e.time_start < 0
    · simp [hp]
    · simp [hp]

theorem activateLoop_id (now : Nat) (effects : List BasicStatusEffect)
    (hall : ∀ e ∈ effects, ¬ e.time_start < 0) :
    effects.map (fun e =>
        if e.time_start < 0 then { e with time_start := (now : Int) } else e) = effects ∧
      effects.filter (fun e => decide (e.time_start < 0)) = [] := by
  induction effects with
  | nil => exact ⟨rfl, rfl⟩
  | cons x xs ih =>
    have hx : ¬ x.time_start < 0 := hall x (by simp)
    obtain ⟨h1, h2⟩ := ih (fun e he => hall e (by simp [he]))
    constructor
    · simp [hx, h1]
    · simp [hx, h2]

theorem activateCollection_eq (now : Nat) (h : now < 2 ^ 63)
    (effects : List BasicStatusEffect) :
    activateCollection now effects =
      (effects.map (fun e =>
         if e.time_start < 0 then { e with time_start := (now : Int) } else e),
       (effects.filter (fun e => decide (e.time_start < 0))).map
         (fun e => BasicStatusEffect.create_packet { e with time_start := (now : Int) })) := by
  simp only [activateCollection]
  by_cases hany : effects.any (fun e => decide (e.time_start < 0)) = true
  · rw [if_pos hany]
    exact activateLoop_eq now h effects
  · rw [if_neg hany]
    have hall : ∀ e ∈ effects, ¬ e.time_start < 0 := by
      intro e he
      intro hc
      exact hany (List.any_eq_true.mpr ⟨e, he, by simpa using hc⟩)
    obtain ⟨h1, h2⟩ := activateLoop_id now effects hall
    rw [h1, h2]
    rfl

theorem expireLoop_preserves (now : Nat) :
    ∀ (snap : List BasicStatusEffect) (i : Nat) (live out : List BasicStatusEffect)
      (pkts pkts' : List RemoveEntityEffect),
      expireLoop now snap i live pkts = some (out, pkts') →
      ∀ e ∈ out, e ∈ live := by
  intro snap
  induction snap with
  | nil =>
    intro i live out pkts pkts' hsome e he
    simp only [expireLoop, Option.some.injEq, Prod.mk.injEq] at hsome
    rw [hsome.1]
    exact he
  | cons s rest ih =>
    intro i live out pkts pkts' hsome e he
    simp only [expireLoop] at hsome
    by_cases hc : s.time_start + i64ofU64 s.duration - i64ofU64 now ≤ 0
    · rw [if_pos hc] at hsome
      cases hrm : removeAtIdx live i with
      | none => rw [hrm] at hsome; cases hsome
      | some live' =>
        rw [hrm] at hsome
        have hmem : e ∈ live' := ih (i + 1) live' out _ pkts' hsome e he
        have hsub : live' = live.eraseIdx i := by
          simp only [removeAtIdx] at hrm
          split at hrm
          · exact (Option.some.injEq _ _ ▸ hrm).symm
          · cases hrm
        rw [hsub] at hmem
        exact (List.eraseIdx_sublist live i).subset hmem
    · rw [if_neg hc] at hsome
      exact ih (i + 1) live out pkts pkts' hsome e he

/-- C7: every pending effect (`time_start < 0`) is stamped with the
current tick during activation and gets exactly one start packet (in
collection order); afterwards every effect in the collection has
`time_start ≥ 0`; expiration only ever removes entries (every survivor
was already in the collection, unchanged); and a full
`update_basic_effects` tick leaves no effect with `time_start < 0`. -/
theorem c7_activation_and_invariant (now : Nat) (effects : List BasicStatusEffect)
    (h : now < 2 ^ 63) :
    (activateCollection now effects).1 =
      effects.map (fun e =>
        if e.time_start < 0 then { e with time_start := (now : Int) } else e) ∧
    (activateCollection now effects).2 =
      (effects.filter (fun e => decide (e.time_start < 0))).map
        (fun e => BasicStatusEffect.create_packet { e with time_start := (now : Int) }) ∧
    (∀ e ∈ (activateCollection now effects).1, 0 ≤ e.time_start) ∧
    (∀ (n : Nat) (es out : List BasicStatusEffect) (pkts : List RemoveEntityEffect),
      expireCollection n es = some (out, pkts) → ∀ e ∈ out, e ∈ es) ∧
    (∀ (out : List BasicStatusEffect) (starts refreshes : List EntityEffect)
       (removes : List RemoveEntityEffect),
      update_basic_effects now effects = some (out, starts, removes, refreshes) →
      ∀ e ∈ out, 0 ≤ e.time_start) := by
  have hc := activateCollection_eq now h effects
  have h1 : (activateCollection now effects).1 =
      effects.map (fun e =>
        if e.time_start < 0 then { e with time_start := (now : Int) } else e) := by
    rw [hc]
  have h3 : ∀ e ∈ (activateCollection now effects).1, 0 ≤ e.time_start := by
    rw [h1]
    intro e he
    obtain ⟨a, _, rfl⟩ := List.mem_map.mp he
    by_cases hp : a.time_start < 0
    · simp only [if_pos hp]
      exact Int.natCast_nonneg now
    · simp only [if_neg hp]
      omega
  have h4 : ∀ (n : Nat) (es out : List BasicStatusEffect)
      (pkts : List RemoveEntityEffect),
      expireCollection n es = some (out, pkts) → ∀ e ∈ out, e ∈ es := by
    intro n es out pkts hsome
    exact expireLoop_preserves n es 0 es out [] pkts hsome
  refine ⟨h1, by rw [hc], h3, h4, ?_⟩
  intro out starts refreshes removes hsome e he
  simp only [update_basic_effects] at hsome
  by_cases h5 : now % 5 = 0
  · rw [if_pos h5] at hsome
    cases hexp : expireCollection now (activateCollection now effects).1 with
    | none => rw [hexp] at hsome; cases hsome
    | some pr =>
      obtain ⟨live, removes'⟩ := pr
      rw [hexp] at hsome
      simp only [Option.some.injEq, Prod.mk.injEq] at hsome
      obtain ⟨hout, -, -, -⟩ := hsome
      rw [← hout] at he
      exact h3 e (h4 now (activateCollection now effects).1 live removes' hexp e he)
  · rw [if_neg h5] at hsome
    simp only [Option.some.injEq, Prod.mk.injEq] at hsome
    obtain ⟨hout, -, -, -⟩ := hsome
    rw [← hout] at he
    exact h3 e he

theorem c7_witness :
    (7 : Nat) < 2 ^ 63 ∧
    ((activateCollection 7
        [{ entity_id := 1, amplifier := 0, time_start := -1, duration := 100,
           effect_type := .Speed, flags := 0 }]).1 =
      [({ entity_id := 1, amplifier := 0, time_start := -1, duration := 100,
          effect_type := .Speed, flags := 0 } : BasicStatusEffect)].map (fun e =>
        if e.time_start < 0 then { e with time_start := ((7 : Nat) : Int) } else e) ∧
    (activateCollection 7
        [{ entity_id := 1, amplifier := 0, time_start := -1, duration := 100,
           effect_type := .Speed, flags := 0 }]).2 =
      ([({ entity_id := 1, amplifier := 0, time_start := -1, duration := 100,
           effect_type := .Speed, flags := 0 } : BasicStatusEffect)].filter (fun e =>
          decide (e.time_start < 0))).map
        (fun e => BasicStatusEffect.create_packet { e with time_start := ((7 : Nat) : Int) }) ∧
    (∀ e ∈ (activateCollection 7
        [{ entity_id := 1, amplifier := 0, time_start := -1, duration := 100,
           effect_type := .Speed, flags := 0 }]).1, 0 ≤ e.time_start) ∧
    (∀ (n : Nat) (es out : List BasicStatusEffect) (pkts : List RemoveEntityEffect),
      expireCollection n es = some (out, pkts) → ∀ e ∈ out, e ∈ es) ∧
    (∀ (out : List BasicStatusEffect) (starts refreshes : List EntityEffect)
       (removes : List RemoveEntityEffect),
      update_basic_effects 7
          [{ entity_id := 1, amplifier := 0, time_start := -1, duration := 100,
             effect_type := .Speed, flags := 0 }] =
        some (out, starts, removes, refreshes) →
      ∀ e ∈ out, 0 ≤ e.time_start)) :=
  ⟨by decide,
   c7_activation_and_invariant 7
     [{ entity_id := 1, amplifier := 0, time_start := -1, duration := 100,
        effect_type := .Speed, flags := 0 }] (by decide)⟩
